import Mathlib

/-!
Verification of the concurrent tag-generation core of the image-tagging
repository (`parallel_processor.py`) and the tag-splitting helper
(`llm_client.split_tags`).

The drain loop of `process_images_parallel` iterates `as_completed` over the
submitted futures: each submitted path is visited exactly once, in a
nondeterministic completion order.  We embed the run as a recursion over an
explicit `completionOrder` list; theorems quantify over every permutation of
the input paths, which captures every completion order the thread pool can
produce.  The untrusted tag function is embedded as
`Path → Except String (List String)`: `Except.error e` models the Python
function raising an exception whose `str` is `e` (which may be the empty
string, as for `ValueError()`).

A run produces a `RunTrace`: the returned result list, the list of paths the
tag function was invoked on, and one `ProgressEvent` per progress-callback
invocation, recording the two arguments passed together with the number of
results already appended at the moment of the call.  `ThreadPoolExecutor`
raises `ValueError("max_workers must be greater than 0")` at construction when
`max_workers <= 0`, before any task is submitted; the embedding returns that
message in the first component and an empty trace in that case.
-/

namespace Choucroute

/-- Filesystem paths are opaque identifiers for the core; embed `Path` as `String`. -/
abbrev Path := String

/-- Embeds the dataclass `ImageTagResult` of `parallel_processor.py`
(`image_path`, `tags`, `success`, `error` with default `""`). -/
structure ImageTagResult where
  image_path : Path
  tags : List String
  success : Bool
  error : String := ""
deriving Repr, DecidableEq

/-- One progress-callback invocation: the `(completed, total)` arguments passed,
plus `resultsRecorded`, the length of `results` at the moment of the call. -/
structure ProgressEvent where
  completed : Nat
  total : Nat
  resultsRecorded : Nat
deriving Repr, DecidableEq

/-- Observable trace of one run of `process_images_parallel`: the returned
result list, the paths the tag function was invoked on, and the
progress-callback invocations in order. -/
structure RunTrace where
  results : List ImageTagResult
  tagCalls : List Path
  progressEvents : List ProgressEvent
deriving Repr, DecidableEq

/-- The body of the `for future in as_completed(...)` loop for one settled
task: `try: tags = future.result(); append success` /
`except Exception as e: append failure with error=str(e)`. -/
def settleTask (f : Path → Except String (List String)) (p : Path) :
    ImageTagResult :=
  match f p with
  | Except.ok tags => { image_path := p, tags := tags, success := true, error := "" }
  | Except.error e => { image_path := p, tags := [], success := false, error := e }

/-- The drain loop of `process_images_parallel`: visits the completion order
left to right, keeping the accumulated `results` list and the `completed`
counter; after appending each outcome it emits a progress event (when a
callback was supplied) carrying the incremented counter, the constant total,
and the current results length. -/
def drainLoop (f : Path → Except String (List String)) (total : Nat)
    (cb : Bool) : List Path → List ImageTagResult → Nat → RunTrace
  | [], acc, _ => ⟨acc, [], []⟩
  | p :: rest, acc, completed =>
    let acc' := acc ++ [settleTask f p]
    let t := drainLoop f total cb rest acc' (completed + 1)
    ⟨t.results, p :: t.tagCalls,
      (if cb then [⟨completed + 1, total, acc'.length⟩] else []) ++ t.progressEvents⟩

/-- Embeds `process_images_parallel(image_paths, processing_function,
max_workers, progress_callback)`.  `hasCallback` is the truthiness of
`progress_callback`; `completionOrder` is the nondeterministic order in which
`as_completed` yields the submitted futures (any permutation of
`image_paths`; `executor.submit` creates a distinct future per list element,
so duplicates submit duplicate tasks).  The first component is `some msg`
when the call raises (only `ThreadPoolExecutor`'s `ValueError` for
`max_workers <= 0`, raised before any submission), `none` when it returns. -/
def process_images_parallel (image_paths : List Path)
    (processing_function : Path → Except String (List String))
    (max_workers : Int) (hasCallback : Bool)
    (completionOrder : List Path) : Option String × RunTrace :=
  if max_workers ≤ 0 then
    (some "max_workers must be greater than 0", ⟨[], [], []⟩)
  else
    (none, drainLoop processing_function image_paths.length hasCallback
      completionOrder [] 0)

/-- Embeds `llm_client.split_tags`: `("Sans-categorie", [])` for the empty
list, otherwise `(tags[0], tags[1:] if len(tags) > 1 else [])`. -/
def split_tags (tags : List String) : String × List String :=
  if h : tags = [] then ("Sans-categorie", [])
  else (tags.head h, if tags.length > 1 then tags.drop 1 else [])

/-! ## Basic lemmas about the drain loop -/

theorem settleTask_image_path (f : Path → Except String (List String))
    (p : Path) : (settleTask f p).image_path = p := by
  unfold settleTask
  cases f p <;> rfl

theorem drainLoop_results (f : Path → Except String (List String))
    (total : Nat) (cb : Bool) (order : List Path) :
    ∀ (acc : List ImageTagResult) (c : Nat),
      (drainLoop f total cb order acc c).results = acc ++ order.map (settleTask f) := by
  induction order with
  | nil => intro acc c; simp [drainLoop]
  | cons p rest ih =>
      intro acc c
      simp [drainLoop, ih]

theorem drainLoop_tagCalls (f : Path → Except String (List String))
    (total : Nat) (cb : Bool) (order : List Path) :
    ∀ (acc : List ImageTagResult) (c : Nat),
      (drainLoop f total cb order acc c).tagCalls = order := by
  induction order with
  | nil => intro acc c; simp [drainLoop]
  | cons p rest ih =>
      intro acc c
      simp [drainLoop, ih]

theorem drainLoop_events_none (f : Path → Except String (List String))
    (total : Nat) (order : List Path) :
    ∀ (acc : List ImageTagResult) (c : Nat),
      (drainLoop f total false order acc c).progressEvents = [] := by
  induction order with
  | nil => intro acc c; simp [drainLoop]
  | cons p rest ih =>
      intro acc c
      simp [drainLoop, ih]

theorem drainLoop_events_completed (f : Path → Except String (List String))
    (total : Nat) (order : List Path) :
    ∀ (acc : List ImageTagResult) (c : Nat),
      (drainLoop f total true order acc c).progressEvents.map ProgressEvent.completed
        = List.range' (c + 1) order.length := by
  induction order with
  | nil => intro acc c; simp [drainLoop]
  | cons p rest ih =>
      intro acc c
      simp [drainLoop, ih, List.range'_succ]

theorem drainLoop_events_total (f : Path → Except String (List String))
    (total : Nat) (order : List Path) :
    ∀ (acc : List ImageTagResult) (c : Nat),
      ∀ e ∈ (drainLoop f total true order acc c).progressEvents, e.total = total := by
  induction order with
  | nil => intro acc c; simp [drainLoop]
  | cons p rest ih =>
      intro acc c e he
      simp [drainLoop] at he
      rcases he with he | he
      · rw [he]
      · exact ih _ _ e he

theorem drainLoop_events_atomic (f : Path → Except String (List String))
    (total : Nat) (cb : Bool) (order : List Path) :
    ∀ (acc : List ImageTagResult) (c : Nat), acc.length = c →
      ∀ e ∈ (drainLoop f total cb order acc c).progressEvents,
        e.completed = e.resultsRecorded := by
  induction order with
  | nil => intro acc c _ e he; simp [drainLoop] at he
  | cons p rest ih =>
      intro acc c hlen e he
      simp only [drainLoop, List.mem_append] at he
      rcases he with he | he
      · rcases cb with _ | _
        · simp at he
        · simp at he
          rw [he]
          simp [hlen]
      · exact ih (acc ++ [settleTask f p]) (c + 1) (by simp [hlen]) e he

/-- Concrete tag function used by witnesses: always raises with description
`"boom"`. -/
def failBoom : Path → Except String (List String) :=
  fun _ => Except.error "boom"

/-- Concrete tag function used by witnesses: always returns `["x", "y"]`. -/
def okXY : Path → Except String (List String) :=
  fun _ => Except.ok ["x", "y"]

/-- Concrete tag function used by witnesses: succeeds on `"a"`, raises with
description `"boom"` elsewhere. -/
def okOnA : Path → Except String (List String) :=
  fun p => if p = "a" then Except.ok ["x"] else Except.error "boom"

/-- Concrete tag function used by witnesses: raises with description `"boom"`
on `"a"`, succeeds elsewhere. -/
def failOnA : Path → Except String (List String) :=
  fun p => if p = "a" then Except.error "boom" else Except.ok ["x"]

theorem map_settleTask_image_path (f : Path → Except String (List String))
    (l : List Path) :
    (l.map (settleTask f)).map ImageTagResult.image_path = l := by
  induction l with
  | nil => rfl
  | cons p rest ih => simp [settleTask_image_path, ih]

/-! ## Claims -/

/-- C1: for every input path list (duplicates allowed), every tag function,
every positive worker count and every completion order (any permutation of the
inputs), `process_images_parallel` returns exactly one outcome per submitted
path, and the multiset of `image_path` values in the output equals the
multiset of input paths. -/
theorem C1_one_outcome_per_path (image_paths completionOrder : List Path)
    (f : Path → Except String (List String)) (max_workers : Int) (cb : Bool)
    (hmw : 0 < max_workers) (hperm : completionOrder.Perm image_paths) :
    (process_images_parallel image_paths f max_workers cb
        completionOrder).2.results.length = image_paths.length ∧
    ((process_images_parallel image_paths f max_workers cb
        completionOrder).2.results.map ImageTagResult.image_path).Perm image_paths := by
  unfold process_images_parallel
  rw [if_neg (not_le.mpr hmw)]
  simp only [drainLoop_results, List.nil_append, map_settleTask_image_path,
    List.length_map]
  exact ⟨hperm.length_eq, hperm⟩

theorem C1_witness :
    (process_images_parallel ["a", "b"] okOnA 2 true ["b", "a"]).2.results.length = 2 ∧
    ((process_images_parallel ["a", "b"] okOnA 2 true
        ["b", "a"]).2.results.map ImageTagResult.image_path).Perm ["a", "b"] :=
  C1_one_outcome_per_path ["a", "b"] ["b", "a"] okOnA 2 true (by decide) (by decide)

/-- C2 counterexample: the claim "success == false implies error is a
non-empty string" is false on the code.  In Python `str(e)` can be the empty
string (e.g. `ValueError()`); the embedding raises with description `""` for
the single path and the recorded failed outcome has `error = ""`. -/
theorem C2_counterexample :
    ¬ (∀ r ∈ (process_images_parallel ["a"] (fun _ => Except.error "")
          4 false ["a"]).2.results,
        r.success = false → r.tags = [] ∧ r.error ≠ "") := by
  decide

/-- C2 (amended): for every outcome with `success = false`, `tags` is empty
and `error` is exactly the textual description of the raised error (which may
be the empty string when the exception stringifies to `""`). -/
theorem C2_failed_outcome_fields (image_paths completionOrder : List Path)
    (f : Path → Except String (List String)) (max_workers : Int) (cb : Bool)
    (hmw : 0 < max_workers) (hperm : completionOrder.Perm image_paths) :
    ∀ r ∈ (process_images_parallel image_paths f max_workers cb
        completionOrder).2.results,
      r.success = false → r.tags = [] ∧ f r.image_path = Except.error r.error := by
  intro r hr hfail
  unfold process_images_parallel at hr
  rw [if_neg (not_le.mpr hmw)] at hr
  rw [drainLoop_results] at hr
  simp only [List.nil_append, List.mem_map] at hr
  obtain ⟨p, _, rfl⟩ := hr
  cases hfp : f p with
  | ok ts =>
      exfalso
      unfold settleTask at hfail
      rw [hfp] at hfail
      simp at hfail
  | error e =>
      unfold settleTask
      rw [hfp]
      simpa using hfp

/-- The failed outcome recorded for path `"a"` under `failBoom`; used by the
C2 witness. -/
def boomOutcome : ImageTagResult :=
  { image_path := "a", tags := [], success := false, error := "boom" }

theorem C2_witness :
    boomOutcome.tags = [] ∧
    failBoom boomOutcome.image_path = Except.error boomOutcome.error :=
  C2_failed_outcome_fields ["a"] ["a"] failBoom 4 false (by decide) (by decide)
    boomOutcome (by decide) (by decide)

/-- C3: for every input and every tag function raising on any subset of the
paths, once the pool is constructed (positive worker count) the call raises
nothing, returns a complete outcome list covering every input path, and each
outcome is exactly what settling that path alone produces — a per-task error
is turned into a failed outcome for that path only and affects no sibling. -/
theorem C3_never_raises_complete (image_paths completionOrder : List Path)
    (f : Path → Except String (List String)) (max_workers : Int) (cb : Bool)
    (hmw : 0 < max_workers) (hperm : completionOrder.Perm image_paths) :
    (process_images_parallel image_paths f max_workers cb completionOrder).1 = none ∧
    ((process_images_parallel image_paths f max_workers cb
        completionOrder).2.results.map ImageTagResult.image_path).Perm image_paths ∧
    ∀ r ∈ (process_images_parallel image_paths f max_workers cb
        completionOrder).2.results, r = settleTask f r.image_path := by
  unfold process_images_parallel
  rw [if_neg (not_le.mpr hmw)]
  refine ⟨rfl, ?_, ?_⟩
  · simp only [drainLoop_results, List.nil_append, map_settleTask_image_path]
    exact hperm
  · intro r hr
    rw [drainLoop_results] at hr
    simp only [List.nil_append, List.mem_map] at hr
    obtain ⟨p, _, rfl⟩ := hr
    rw [settleTask_image_path]

theorem C3_witness :
    (process_images_parallel ["a", "b"] failOnA 1 false ["a", "b"]).1 = none ∧
    ((process_images_parallel ["a", "b"] failOnA 1 false
        ["a", "b"]).2.results.map ImageTagResult.image_path).Perm ["a", "b"] ∧
    ∀ r ∈ (process_images_parallel ["a", "b"] failOnA 1 false ["a", "b"]).2.results,
      r = settleTask failOnA r.image_path :=
  C3_never_raises_complete ["a", "b"] ["a", "b"] failOnA 1 false
    (by decide) (by decide)

/-- C4: an outcome has `success = true` exactly for the paths whose tag
function call returned; such an outcome carries the returned tag sequence
verbatim (also when empty) and the empty error string, and conversely every
path on which the function returns `ts` contributes the outcome
`{image_path, tags := ts, success := true, error := ""}`. -/
theorem C4_success_outcomes (image_paths completionOrder : List Path)
    (f : Path → Except String (List String)) (max_workers : Int) (cb : Bool)
    (hmw : 0 < max_workers) (hperm : completionOrder.Perm image_paths) :
    (∀ r ∈ (process_images_parallel image_paths f max_workers cb
        completionOrder).2.results,
      r.success = true → f r.image_path = Except.ok r.tags ∧ r.error = "") ∧
    (∀ p ∈ image_paths, ∀ ts, f p = Except.ok ts →
      ({ image_path := p, tags := ts, success := true, error := "" } : ImageTagResult)
        ∈ (process_images_parallel image_paths f max_workers cb
            completionOrder).2.results) := by
  unfold process_images_parallel
  rw [if_neg (not_le.mpr hmw)]
  simp only [drainLoop_results, List.nil_append]
  constructor
  · intro r hr hsucc
    simp only [List.mem_map] at hr
    obtain ⟨p, _, rfl⟩ := hr
    cases hfp : f p with
    | ok ts =>
        unfold settleTask
        rw [hfp]
        simpa using hfp
    | error e =>
        exfalso
        unfold settleTask at hsucc
        rw [hfp] at hsucc
        simp at hsucc
  · intro p hp ts hfp
    have hmem : p ∈ completionOrder := hperm.mem_iff.mpr hp
    have : settleTask f p =
        { image_path := p, tags := ts, success := true, error := "" } := by
      unfold settleTask
      rw [hfp]
    rw [← this]
    exact List.mem_map_of_mem (settleTask f) hmem

theorem C4_witness :
    (∀ r ∈ (process_images_parallel ["a"] okXY 4 false ["a"]).2.results,
      r.success = true →
        okXY r.image_path = Except.ok r.tags ∧ r.error = "") ∧
    (∀ p ∈ (["a"] : List Path), ∀ ts, okXY p = Except.ok ts →
      ({ image_path := p, tags := ts, success := true, error := "" } : ImageTagResult)
        ∈ (process_images_parallel ["a"] okXY 4 false ["a"]).2.results) :=
  C4_success_outcomes ["a"] ["a"] okXY 4 false (by decide) (by decide)

/-- C5: with a supplied callback, an input of length K and any completion
order, the callback is invoked exactly K times, the `completed` arguments are
exactly `1, 2, ..., K` in that order, and every `total` argument equals K. -/
theorem C5_progress_calls (image_paths completionOrder : List Path)
    (f : Path → Except String (List String)) (max_workers : Int)
    (hmw : 0 < max_workers) (hperm : completionOrder.Perm image_paths) :
    (process_images_parallel image_paths f max_workers true
        completionOrder).2.progressEvents.length = image_paths.length ∧
    (process_images_parallel image_paths f max_workers true
        completionOrder).2.progressEvents.map ProgressEvent.completed
      = List.range' 1 image_paths.length ∧
    ∀ e ∈ (process_images_parallel image_paths f max_workers true
        completionOrder).2.progressEvents, e.total = image_paths.length := by
  unfold process_images_parallel
  rw [if_neg (not_le.mpr hmw)]
  have hmap := drainLoop_events_completed f image_paths.length completionOrder [] 0
  refine ⟨?_, ?_, ?_⟩
  · have hlen := congrArg List.length hmap
    simpa [hperm.length_eq] using hlen
  · simpa [hperm.length_eq] using hmap
  · exact drainLoop_events_total f image_paths.length completionOrder [] 0

theorem C5_witness :
    (process_images_parallel ["a", "b"] okOnA 2 true
        ["b", "a"]).2.progressEvents.length = 2 ∧
    (process_images_parallel ["a", "b"] okOnA 2 true
        ["b", "a"]).2.progressEvents.map ProgressEvent.completed
      = List.range' 1 2 ∧
    ∀ e ∈ (process_images_parallel ["a", "b"] okOnA 2 true
        ["b", "a"]).2.progressEvents, e.total = 2 :=
  C5_progress_calls ["a", "b"] ["b", "a"] okOnA 2 (by decide) (by decide)

/-- C6: at the moment of each progress-callback invocation, the completed
count passed equals the number of outcomes already appended to the results
list — the append and the increment behave as one step with respect to the
callback — for every input, worker count, and completion order. -/
theorem C6_progress_matches_recorded (image_paths completionOrder : List Path)
    (f : Path → Except String (List String)) (max_workers : Int) (cb : Bool) :
    ∀ e ∈ (process_images_parallel image_paths f max_workers cb
        completionOrder).2.progressEvents,
      e.completed = e.resultsRecorded := by
  unfold process_images_parallel
  by_cases h : max_workers ≤ 0
  · rw [if_pos h]
    intro e he
    simp at he
  · rw [if_neg h]
    exact drainLoop_events_atomic f image_paths.length cb completionOrder [] 0 rfl

theorem C6_witness :
    ProgressEvent.completed ⟨1, 2, 1⟩ = ProgressEvent.resultsRecorded ⟨1, 2, 1⟩ :=
  C6_progress_matches_recorded ["a", "b"] ["a", "b"] okOnA 2 true
    ⟨1, 2, 1⟩ (by decide)

/-- C7: the empty input with any tag function and any positive worker count
returns the empty result list, invokes the tag function zero times
(`tagCalls = []`), and invokes the progress callback zero times
(`progressEvents = []`). -/
theorem C7_empty_input (f : Path → Except String (List String))
    (max_workers : Int) (cb : Bool) (hmw : 0 < max_workers) :
    process_images_parallel [] f max_workers cb [] = (none, ⟨[], [], []⟩) := by
  unfold process_images_parallel
  rw [if_neg (not_le.mpr hmw)]
  rfl

theorem C7_witness :
    process_images_parallel [] okXY 4 true [] = (none, ⟨[], [], []⟩) :=
  C7_empty_input okXY 4 true (by decide)

/-- C8: for every zero or negative `max_workers`, the call raises
`ThreadPoolExecutor`'s `ValueError` at pool construction, before any
submission: for every input, the tag function is invoked zero times
(`tagCalls = []`) and the progress callback zero times
(`progressEvents = []`). -/
theorem C8_invalid_max_workers (image_paths completionOrder : List Path)
    (f : Path → Except String (List String)) (max_workers : Int) (cb : Bool)
    (hmw : max_workers ≤ 0) :
    process_images_parallel image_paths f max_workers cb completionOrder
      = (some "max_workers must be greater than 0", ⟨[], [], []⟩) := by
  unfold process_images_parallel
  rw [if_pos hmw]

theorem C8_witness :
    process_images_parallel ["a", "b"] okXY 0 true ["a", "b"]
      = (some "max_workers must be greater than 0", ⟨[], [], []⟩) :=
  C8_invalid_max_workers ["a", "b"] ["a", "b"] okXY 0 true (by decide)

/-- C9 counterexample: the claim quantifies over every input sequence of K
paths, K = 0 included.  At the empty input, the run with `max_workers = K = 0`
raises `ValueError` in `ThreadPoolExecutor` (first component `some _`) while
the run with `max_workers = 1` returns normally, so it is not the case that
both runs return result lists (and agree on them). -/
theorem C9_counterexample :
    ¬ ((process_images_parallel [] okXY 1 false []).1 = none ∧
       (process_images_parallel [] okXY
          (List.length ([] : List Path) : Int) false []).1 = none ∧
       (process_images_parallel [] okXY 1 false []).2.results.Perm
         (process_images_parallel [] okXY
            (List.length ([] : List Path) : Int) false []).2.results) := by
  decide

/-- C9 (amended): for every NON-EMPTY input sequence of K paths and every
deterministic tag function, running with `max_workers = 1` and with
`max_workers = K` both return normally and yield the same multiset of
outcomes, whatever completion orders and callback choices the two runs use. -/
theorem C9_worker_count_invariance (image_paths ordOne ordK : List Path)
    (f : Path → Except String (List String)) (cb1 cb2 : Bool)
    (hne : image_paths ≠ [])
    (h1 : ordOne.Perm image_paths) (h2 : ordK.Perm image_paths) :
    (process_images_parallel image_paths f 1 cb1 ordOne).1 = none ∧
    (process_images_parallel image_paths f (image_paths.length : Int)
        cb2 ordK).1 = none ∧
    (process_images_parallel image_paths f 1 cb1 ordOne).2.results.Perm
      (process_images_parallel image_paths f (image_paths.length : Int)
        cb2 ordK).2.results := by
  have hK : (0 : Int) < (image_paths.length : Int) := by
    exact_mod_cast List.length_pos.mpr hne
  unfold process_images_parallel
  rw [if_neg (by norm_num : ¬ (1 : Int) ≤ 0), if_neg (not_le.mpr hK)]
  refine ⟨rfl, rfl, ?_⟩
  simp only [drainLoop_results, List.nil_append]
  exact (h1.trans h2.symm).map (settleTask f)

theorem C9_witness :
    (process_images_parallel ["a", "b"] okOnA 1 false ["b", "a"]).1 = none ∧
    (process_images_parallel ["a", "b"] okOnA (2 : Int) false
        ["a", "b"]).1 = none ∧
    (process_images_parallel ["a", "b"] okOnA 1 false ["b", "a"]).2.results.Perm
      (process_images_parallel ["a", "b"] okOnA (2 : Int) false
        ["a", "b"]).2.results :=
  C9_worker_count_invariance ["a", "b"] ["b", "a"] ["a", "b"] okOnA false false
    (by decide) (by decide) (by decide)

/-- C10: `split_tags` on the empty list returns `("Sans-categorie", [])`
rather than failing, and on every non-empty list returns the pair of the
first element and the list of remaining elements, so consing the returned
primary tag onto the secondary tags reconstitutes the input. -/
theorem C10_split_tags_spec :
    split_tags [] = ("Sans-categorie", []) ∧
    ∀ (t : String) (ts : List String),
      split_tags (t :: ts) = (t, ts) ∧
      (split_tags (t :: ts)).1 :: (split_tags (t :: ts)).2 = t :: ts := by
  refine ⟨rfl, ?_⟩
  intro t ts
  have h1 : split_tags (t :: ts) = (t, ts) := by
    unfold split_tags
    rw [dif_neg (by simp : ¬ (t :: ts = []))]
    cases ts with
    | nil => simp
    | cons a l => simp
  exact ⟨h1, by rw [h1]⟩

end Choucroute
